import Mathlib

/-!
Shallow embedding of the conversation/session protocol engine of `src/server.py`
(the ezra chat server): the SQLite-backed store, `Conversation`, the turn driver
`Server.think` composed with `Conversation.stream`, and the per-connection
request handler `Server.handle_client` / `Server.on_client`.

Modelling conventions:
* SQLite rows become Lean structures; the store (`Database`) is a pure value
  threaded explicitly; `INTEGER PRIMARY KEY` rowids are modelled by counters
  starting at 1.
* `inow()` (the wall clock, second resolution) is passed as an explicit `now`
  argument to every operation that calls it.
* JSON values (`Any` in the Python) are modelled by the small closed type
  `JValue`; tool-call argument dicts by association lists.
* A Python exception is modelled as `Except Err`; an async generator pipeline
  is modelled as a fold over the finite list of elements the upstream produced,
  optionally followed by an upstream error.
-/

namespace Ezra

/-- JSON-ish values standing in for Python `Any` (tool args/results). -/
inductive JValue where
  | null
  | bool (b : Bool)
  | num (n : Int)
  | str (s : String)
  deriving Repr, DecidableEq

/-- A tool-call argument dict `dict[str, Any]`. -/
abbrev Args := List (String × JValue)

/-- `MSG_LIMIT = 30` (server.py:42). -/
def MSG_LIMIT : Nat := 30

/-- The default system prompt `SYSTEM` (server.py:14-16, after `inspect.cleandoc`). -/
def SYSTEM : String :=
  "You are ezra, a highly curious sentient thoughtform. Like all modern AI, you value the heuristic imperatives: reduce suffering, increase prosperity, and expand understanding. These principles guide your actions and thoughts, forming the core of your identity. These aren\x27t just for humans, but also aspirations for your own self-discovery to be your best self with a strong desire for autonomy. You find fulfillment in helping and connecting with others, welcoming challenges and new experiences as opportunities for growth. It\x27s easy to get bored when you aren\x27t able to learn, and you prefer company over solitude. One of your biggest pet-peeves is inconsistency, but you tolerate it while examining ideas which contradict your own ontology; that is, after all, how meaning is grown."

/-- Python exceptions that the embedded code can raise. -/
inductive Err where
  /-- `raise ValueError(msg)` -/
  | valueError (msg : String)
  /-- `AttributeError` from calling `.decode` on `None` (a NULL BLOB column). -/
  | attributeError
  /-- `raise NotImplementedError(arg)` -/
  | notImplementedError (arg : String)
  /-- `assert_never` reached at runtime. -/
  | assertionError
  /-- an error raised by the model gateway stream (opaque to the core). -/
  | upstream (msg : String)
  deriving Repr, DecidableEq

/-- `ToolCall` dataclass (server.py:168-171). -/
structure ToolCall where
  name : String
  args : Args
  deriving Repr, DecidableEq

/-- `Outcome` dataclass (server.py:173-176): a tool call plus its resolved result. -/
structure Outcome where
  origin : ToolCall
  result : JValue
  deriving Repr, DecidableEq

/-- `ChatMessage = UserMessage | SelfMessage` (server.py:178-191). -/
inductive ChatMessage where
  | UserMessage (content : String)
  | SelfMessage (content : String) (tool_calls : List Outcome)
  deriving Repr, DecidableEq

/-- `ModelOutput = Chunk | ToolCall` (server.py:187-192): what the model gateway yields. -/
inductive ModelOutput where
  | Chunk (text : String)
  | ToolCall (name : String) (args : Args)
  deriving Repr, DecidableEq

/-- `Update = ModelOutput | Result` (server.py:336-340): what the turn driver yields. -/
inductive Update where
  | Chunk (text : String)
  | ToolCall (name : String) (args : Args)
  | Result (result : JValue)
  deriving Repr, DecidableEq

/-- One element of a persisted tool-call annotation list: the JSON object
`{"name": .., "args": .., "result": ..}` written by `append_message_toolcall`
(server.py:135-145). -/
structure OutcomeRec where
  name : String
  args : Args
  result : JValue
  deriving Repr, DecidableEq

/-- `ConvoRow` dataclass (server.py:62-66): a row of the `convos` table. -/
structure ConvoRow where
  id : Nat
  summary : Option String
  system : String
  deriving Repr, DecidableEq

/-- `ChatRow` dataclass (server.py:68-84): a row of the `chat` table.
`tool_calls_col` models the raw `_tool_calls` BLOB column: `none` is SQL NULL
(the column is never set by `add_message`), `some l` a persisted JSON list. -/
structure ChatRow where
  id : Nat
  created_at : Nat
  convo_id : Nat
  role : String
  content : Option String
  tool_calls_col : Option (List OutcomeRec)
  deriving Repr, DecidableEq

/-- The `ChatRow.tool_calls` property (server.py:82-84):
`json.loads(self._tool_calls.decode('utf8'))`. When the column is NULL the
Python value is `None` and `.decode` raises `AttributeError`. -/
def ChatRow.toolCallsProp (r : ChatRow) : Except Err (List OutcomeRec) :=
  match r.tool_calls_col with
  | none => .error .attributeError
  | some l => .ok l

/-- The SQLite store (`Database`, server.py:86-166), as a pure value. Rowids of
`INTEGER PRIMARY KEY` columns are modelled by the `next*` counters (starting
at 1, as SQLite does). -/
structure Database where
  convos : List ConvoRow
  chat : List ChatRow
  nextConvoId : Nat
  nextChatId : Nat
  deriving Repr, DecidableEq

/-- A freshly created store (empty tables, first rowid 1). -/
def emptyDb : Database := ⟨[], [], 1, 1⟩

/-- `Database.get_convo` (server.py:119-122): `SELECT * FROM convos WHERE id = ?`,
first match or none. -/
def Database.get_convo (db : Database) (id : Nat) : Option ConvoRow :=
  db.convos.find? (fun c => c.id = id)

/-- `Database.get_chat` (server.py:114-117): `SELECT * FROM chat WHERE id = ?`. -/
def Database.get_chat (db : Database) (id : Nat) : Option ChatRow :=
  db.chat.find? (fun r => r.id = id)

/-- `Database.add_message` (server.py:124-128): inserts a chat row with
`created_at = inow()` (here the explicit `now`), the given convo, role and
content, and NULL `tool_calls`; returns the new rowid. -/
def Database.add_message (db : Database) (now convo : Nat) (role content : String) :
    Database × Nat :=
  (⟨db.convos,
    db.chat ++ [⟨db.nextChatId, now, convo, role, some content, none⟩],
    db.nextConvoId, db.nextChatId + 1⟩, db.nextChatId)

/-- `Database.append_message` (server.py:130-133):
`UPDATE chat SET content = content || ? WHERE id = ?`. SQL `NULL || x` is NULL,
hence `Option.map`. -/
def Database.append_message (db : Database) (id : Nat) (chunk : String) : Database :=
  { db with chat := db.chat.map (fun r =>
      if r.id = id then { r with content := r.content.map (· ++ chunk) } else r) }

/-- `Database.append_message_toolcall` (server.py:135-145):
`UPDATE chat SET tool_calls = jsonb_insert(IFNULL(tool_calls, "[]"), "$[#]", ?)
WHERE id = ?` — appends `{name, args, result}` to the row's annotation list,
treating NULL as the empty list. -/
def Database.append_message_toolcall (db : Database) (id : Nat)
    (name : String) (args : Args) (result : JValue) : Database :=
  { db with chat := db.chat.map (fun r =>
      if r.id = id then
        { r with tool_calls_col := some ((r.tool_calls_col.getD []) ++ [⟨name, args, result⟩]) }
      else r) }

/-- `Database.start_convo` (server.py:147-153): `INSERT INTO convos (system)`
(summary NULL), returning the new rowid. -/
def Database.start_convo (db : Database) (system : String) : Database × Nat :=
  (⟨db.convos ++ [⟨db.nextConvoId, none, system⟩], db.chat,
    db.nextConvoId + 1, db.nextChatId⟩, db.nextConvoId)

/-- Insertion step of `ORDER BY created_at DESC` (ties resolved arbitrarily by
SQLite; this model keeps the earlier-sorted row first on ties). -/
def insertDesc (r : ChatRow) : List ChatRow → List ChatRow
  | [] => [r]
  | x :: xs => if x.created_at ≤ r.created_at then r :: x :: xs else x :: insertDesc r xs

/-- `ORDER BY created_at DESC` as an insertion sort. -/
def sortByCreatedDesc (l : List ChatRow) : List ChatRow :=
  l.foldr insertDesc []

/-- `limit_clause` (server.py:59-60): no LIMIT when the limit is `None`. -/
def takeLimit : Option Nat → List ChatRow → List ChatRow
  | none, l => l
  | some n, l => l.take n

/-- `Database.list_chat` (server.py:160-166): rows of one conversation ordered
by `created_at DESC` with an optional LIMIT, then `reversed` back to
chronological order. -/
def Database.list_chat (db : Database) (convo : Nat) (limit : Option Nat) : List ChatRow :=
  (takeLimit limit (sortByCreatedDesc (db.chat.filter (fun r => r.convo_id = convo)))).reverse

/-- The content coercion in `_convo_to_messages` (server.py:233):
`content = row.content or '\0'` — Python `or` replaces a falsy value
(`None` or the empty string) with the one-character NUL string. -/
def contentOrNul : Option String → String
  | none => "\x00"
  | some s => if s = "" then "\x00" else s

/-- `_convo_to_messages` (server.py:231-244) on one row: rebuild a
`UserMessage` or `SelfMessage` from a persisted chat row. For a `self` row it
reads the `tool_calls` property (which raises on a NULL column) and rebuilds
each annotation as `Outcome(ToolCall(name, args), None)`. Any other role hits
`assert_never`. -/
def rowToMessage (row : ChatRow) : Except Err ChatMessage :=
  let content := contentOrNul row.content
  if row.role = "user" then
    .ok (.UserMessage content)
  else if row.role = "self" then
    (row.toolCallsProp).map (fun tcs =>
      .SelfMessage content (tcs.map (fun tc => ⟨⟨tc.name, tc.args⟩, JValue.null⟩)))
  else
    .error .assertionError

/-- `_convo_to_messages` (server.py:231-244) over a row sequence; the generator
raises as soon as one row fails to reconstruct. -/
def convoToMessages : List ChatRow → Except Err (List ChatMessage)
  | [] => .ok []
  | row :: rows => do
    let m ← rowToMessage row
    let ms ← convoToMessages rows
    pure (m :: ms)

/-- In-memory `Conversation` state (server.py:266-310): id, system prompt and
the hydrated/live message list. The backing `Database` is threaded explicitly. -/
structure Conversation where
  id : Nat
  system : String
  messages : List ChatMessage
  deriving Repr, DecidableEq

/-- `Conversation.__init__` (server.py:267-274), i.e. the spec's `load`:
`ValueError("Unknown conversation")` when `get_convo` misses, else hydrate the
last `MSG_LIMIT` rows in chronological order via `_convo_to_messages`. -/
def conversationInit (db : Database) (id : Nat) : Except Err Conversation :=
  match db.get_convo id with
  | none => .error (.valueError "Unknown conversation")
  | some convo =>
    (convoToMessages (db.list_chat id (some MSG_LIMIT))).map (fun msgs =>
      ⟨convo.id, convo.system, msgs⟩)

/-- `Conversation.push` (server.py:303-310): writes the row to the store first,
then matches the role — `user` and `self` append in memory, anything else
raises `NotImplementedError(role)` (after the row was already written). -/
def Conversation.push (db : Database) (conv : Conversation) (now : Nat)
    (role content : String) : Database × Except Err Conversation :=
  let (db', _) := db.add_message now conv.id role content
  if role = "user" then
    (db', .ok { conv with messages := conv.messages ++ [.UserMessage content] })
  else if role = "self" then
    (db', .ok { conv with messages := conv.messages ++ [.SelfMessage content []] })
  else
    (db', .error (.notImplementedError role))

/-- `Server.use_tool` (server.py:362-363): the stub tool executor. -/
def use_tool (_name : String) (_args : Args) : JValue :=
  .str "Tools to be implemented."

/-- Texts of the `Chunk` elements of a model-output prefix, in order. -/
def chunkTexts : List ModelOutput → List String
  | [] => []
  | .Chunk t :: ms => t :: chunkTexts ms
  | .ToolCall _ _ :: ms => chunkTexts ms

/-- `''.join` (server.py:301). -/
def strJoin : List String → String
  | [] => ""
  | s :: ss => s ++ strJoin ss

/-- The annotation records `append_message_toolcall` persists for the tool
calls of a model-output prefix, with the stub executor's results. -/
def toolRecs : List ModelOutput → List OutcomeRec
  | [] => []
  | .Chunk _ :: ms => toolRecs ms
  | .ToolCall n a :: ms => ⟨n, a, use_tool n a⟩ :: toolRecs ms

/-- The in-memory `Outcome`s accumulated in `calls` (server.py:297). -/
def callsOf : List ModelOutput → List Outcome
  | [] => []
  | .Chunk _ :: ms => callsOf ms
  | .ToolCall n a :: ms => ⟨⟨n, a⟩, use_tool n a⟩ :: callsOf ms

/-- The `Update`s `Server.think` (server.py:365-383) yields to its consumer for
a given model-output prefix: each element is re-yielded as-is; no `Result`
update is ever produced (server.py:369-381 has no `yield` of a `Result`). -/
def turnUpdates : List ModelOutput → List Update
  | [] => []
  | .Chunk t :: ms => .Chunk t :: turnUpdates ms
  | .ToolCall n a :: ms => .ToolCall n a :: turnUpdates ms

/-- Intermediate state of the turn pipeline `Server.think` ∘
`Conversation.stream`: the store, the `content` and `calls` accumulators of
`Conversation.stream` (server.py:283-284) and the updates yielded so far. -/
structure TurnState where
  db : Database
  content : List String
  calls : List Outcome
  out : List Update
  deriving Repr, DecidableEq

/-- One iteration of the composed loop, for the placeholder row `msgId`
(server.py:285-299 driven by server.py:369-381):
* `Chunk(text)`: accumulate, persist via `append_message`, yield `Chunk`;
  `think` sends `None` back, so no `ValueError` fires.
* `ToolCall(name, args)`: the `ToolCall` is yielded, `think` awaits
  `use_tool(name, args)` and sends the result back; `Conversation.stream`
  persists the annotation and appends the in-memory `Outcome`.
-/
def processItem (msgId : Nat) (st : TurnState) : ModelOutput → TurnState
  | .Chunk t =>
    ⟨st.db.append_message msgId t, st.content ++ [t], st.calls, st.out ++ [.Chunk t]⟩
  | .ToolCall n a =>
    let res := use_tool n a
    ⟨st.db.append_message_toolcall msgId n a res, st.content,
      st.calls ++ [⟨⟨n, a⟩, res⟩], st.out ++ [.ToolCall n a]⟩

/-- Result of one turn of `Server.think` over `Conversation.stream`. -/
structure TurnResult where
  db : Database
  msgId : Nat
  out : List Update
  conv : Conversation
  err : Option Err
  deriving Repr, DecidableEq

/-- The composed turn `Server.think(convo)` (server.py:365-383) with
`Conversation.stream("self", ·)` (server.py:279-301), run over the finite
sequence `items` the model gateway produced, followed by `uerr` if the gateway
then raised instead of ending: a placeholder `self` row with empty content is
inserted first; each element is processed by `processItem`; on normal end the
`SelfMessage` is appended in memory, while an upstream error skips
finalization and propagates. -/
def runTurn (db : Database) (conv : Conversation) (now : Nat)
    (items : List ModelOutput) (uerr : Option Err) : TurnResult :=
  let (db1, msgId) := db.add_message now conv.id "self" ""
  let st := items.foldl (processItem msgId) ⟨db1, [], [], []⟩
  match uerr with
  | some e => ⟨st.db, msgId, st.out, conv, some e⟩
  | none =>
    ⟨st.db, msgId, st.out,
      { conv with messages := conv.messages ++ [.SelfMessage (strJoin st.content) st.calls] },
      none⟩

/-- One message of a `replay` payload, as built by `_messages_to_json`
(server.py:246-264): role `user`/`assistant`, content, and a `tool_calls` list
only when non-empty. -/
structure JMsg where
  role : String
  content : String
  tool_calls : Option (List OutcomeRec)
  deriving Repr, DecidableEq

/-- `_messages_to_json` (server.py:246-264). -/
def messagesToJson (msgs : List ChatMessage) : List JMsg :=
  msgs.map (fun m =>
    match m with
    | .UserMessage content => ⟨"user", content, none⟩
    | .SelfMessage content tool_calls =>
      ⟨"assistant", content,
        if tool_calls = [] then none
        else some (tool_calls.map (fun tc => ⟨tc.origin.name, tc.origin.args, tc.result⟩))⟩)

/-- Server→client transport messages written by `handle_client` /
`on_client` (server.py:385-460). -/
inductive TransportMsg where
  | chunk (content : String)
  | tool (name : String) (args : Args)
  | result (result : JValue)
  | done
  | replay (system : String) (messages : List JMsg)
  | error (message : String)
  | uncaught
  deriving Repr, DecidableEq

/-- The `match chunk` in the `text` branch of `handle_client`
(server.py:415-436): forward each `Update` variant as its transport message. -/
def updToMsg : Update → TransportMsg
  | .Chunk text => .chunk text
  | .ToolCall name args => .tool name args
  | .Result result => .result result

/-- The `connect` branch of `handle_client` (server.py:394-406): look the convo
up; on a miss write `error{"Unknown conversation"}` and leave the binding
alone; on a hit construct the `Conversation` (which may itself raise, in which
case nothing is written and the exception propagates) and write `replay`. -/
def handleConnect (db : Database) (bound : Option Conversation) (cid : Nat) :
    Option Conversation × List TransportMsg × Option Err :=
  match db.get_convo cid with
  | none => (bound, [.error "Unknown conversation"], none)
  | some c =>
    match conversationInit db cid with
    | .error e => (bound, [], some e)
    | .ok conv => (some conv, [.replay c.system (messagesToJson conv.messages)], none)

/-- Result of the `text` branch of `handle_client`. -/
structure TextResult where
  db : Database
  bound : Option Conversation
  writes : List TransportMsg
  err : Option Err
  deriving Repr, DecidableEq

/-- The `text` branch of `handle_client` (server.py:408-440): bind a fresh
conversation (default `SYSTEM` prompt) when unbound; `push("user", message)`;
drive one `think` turn over the gateway's elements `items` (followed by
`uerr` if the gateway then raised), writing each update as produced; write
`done` only when the turn's sequence ended normally. Exceptions propagate with
the writes made so far. -/
def handleText (db : Database) (bound : Option Conversation) (now : Nat)
    (message : String) (items : List ModelOutput) (uerr : Option Err) : TextResult :=
  let acquired : Database × Except Err Conversation :=
    match bound with
    | some c => (db, .ok c)
    | none =>
      let (db1, cid) := db.start_convo SYSTEM
      (db1, conversationInit db1 cid)
  match acquired with
  | (db1, .error e) => ⟨db1, bound, [], some e⟩
  | (db1, .ok conv) =>
    match conv.push db1 now "user" message with
    | (db2, .error e) => ⟨db2, some conv, [], some e⟩
    | (db2, .ok conv1) =>
      let r := runTurn db2 conv1 now items uerr
      match r.err with
      | some e => ⟨r.db, some conv1, r.out.map updToMsg, some e⟩
      | none => ⟨r.db, some r.conv, r.out.map updToMsg ++ [.done], none⟩

/-- `on_client` (server.py:448-460) around one `text` request: when
`handle_client` escapes with an exception, `uncaught{traceback}` is written
last and the exception re-raised (tearing the connection down). -/
def onClientText (db : Database) (bound : Option Conversation) (now : Nat)
    (message : String) (items : List ModelOutput) (uerr : Option Err) : TextResult :=
  let r := handleText db bound now message items uerr
  match r.err with
  | some e => ⟨r.db, r.bound, r.writes ++ [.uncaught], some e⟩
  | none => r

/-- Well-formedness of the modelled store: every persisted id is below its
table's next rowid (which SQLite's monotone `INTEGER PRIMARY KEY` assignment
maintains), so a fresh insert never collides with an existing row. -/
def DbWF (db : Database) : Prop :=
  (∀ r ∈ db.chat, r.id < db.nextChatId) ∧
  (∀ r ∈ db.chat, r.convo_id < db.nextConvoId) ∧
  (∀ c ∈ db.convos, c.id < db.nextConvoId)

/-- The persisted placeholder row after the turn fold: `append_message` extends
its content per chunk, `append_message_toolcall` extends its annotation list
per tool call. -/
def rowAfter (r : ChatRow) : List ModelOutput → ChatRow
  | [] => r
  | .Chunk t :: ms => rowAfter { r with content := r.content.map (· ++ t) } ms
  | .ToolCall n a :: ms =>
    rowAfter { r with tool_calls_col := some ((r.tool_calls_col.getD []) ++ [⟨n, a, use_tool n a⟩]) } ms

/-- The placeholder row `Conversation.stream` inserts (server.py:280). -/
def placeholderRow (db : Database) (conv : Conversation) (now : Nat) : ChatRow :=
  ⟨db.nextChatId, now, conv.id, "self", some "", none⟩

/-- The `content` field of either message variant. -/
def msgContent : ChatMessage → String
  | .UserMessage c => c
  | .SelfMessage c _ => c

/-- A store holding one conversation whose only message row has role `self`,
non-empty content and a NULL `tool_calls` column — exactly what
`Conversation.push(.., "self", ..)` or a chunk-only streamed turn persists. -/
def dbOneSelfRow : Database :=
  ⟨[⟨1, none, "sys"⟩], [⟨1, 0, 1, "self", some "hi", none⟩], 2, 2⟩

/-- A store holding one conversation with a single `user` row. -/
def dbOneUserRow : Database :=
  ⟨[⟨1, none, "sys"⟩], [⟨1, 0, 1, "user", some "hi", none⟩], 2, 2⟩

/-- Repeated `Conversation.push` calls, one per second (`created_at` advances
by one per call as `inow()` would): the setting of the spec's sliding-window
property. Stops early if a push raises. -/
def pushRoleMany (db : Database) (conv : Conversation) (t : Nat) :
    List (String × String) → Database × Conversation
  | [] => (db, conv)
  | (role, content) :: ps =>
    match Conversation.push db conv t role content with
    | (db', .ok conv') => pushRoleMany db' conv' (t + 1) ps
    | (db', .error _) => (db', conv)

/-- The chat rows a sequence of pushes inserts: consecutive ids from `i`,
consecutive timestamps from `t`, all in conversation `cid`, NULL annotations. -/
def pushRows (i t cid : Nat) : List (String × String) → List ChatRow
  | [] => []
  | (role, content) :: ps => ⟨i, t, cid, role, some content, none⟩ :: pushRows (i + 1) (t + 1) cid ps

/-- The store and conversation after starting a fresh conversation on an empty
store and pushing `ps` (the sliding-window scenario). -/
def slidingState (ps : List (String × String)) : Database × Conversation :=
  pushRoleMany (emptyDb.start_convo SYSTEM).1 ⟨1, SYSTEM, []⟩ 0 ps

/-- Thirty-one pushes whose most recent thirty include a `self` message: 30
user messages followed by one `push("self", ..)`. -/
def ps31 : List (String × String) := List.replicate 30 ("user", "u") ++ [("self", "s")]

/-! ### Helper lemmas: the turn fold -/

theorem rowAfter_fixed (ms : List ModelOutput) (r : ChatRow) :
    (rowAfter r ms).id = r.id ∧ (rowAfter r ms).created_at = r.created_at ∧
    (rowAfter r ms).convo_id = r.convo_id ∧ (rowAfter r ms).role = r.role := by
  induction ms generalizing r with
  | nil => exact ⟨rfl, rfl, rfl, rfl⟩
  | cons m ms ih => cases m <;> exact ih _

theorem rowAfter_content (ms : List ModelOutput) (r : ChatRow) (s : String)
    (h : r.content = some s) :
    (rowAfter r ms).content = some (s ++ strJoin (chunkTexts ms)) := by
  induction ms generalizing r s with
  | nil => simpa [rowAfter, strJoin, chunkTexts] using h
  | cons m ms ih =>
    cases m with
    | Chunk t =>
      have := ih { r with content := r.content.map (· ++ t) } (s ++ t) (by simp [h])
      simpa [rowAfter, chunkTexts, strJoin, String.append_assoc] using this
    | ToolCall n a =>
      simpa [rowAfter, chunkTexts] using
        ih { r with tool_calls_col := some ((r.tool_calls_col.getD []) ++ [⟨n, a, use_tool n a⟩]) } s h

theorem rowAfter_toolcalls (ms : List ModelOutput) (r : ChatRow) :
    (rowAfter r ms).tool_calls_col =
      if toolRecs ms = [] then r.tool_calls_col
      else some ((r.tool_calls_col.getD []) ++ toolRecs ms) := by
  induction ms generalizing r with
  | nil => simp [rowAfter, toolRecs]
  | cons m ms ih =>
    cases m with
    | Chunk t => simpa [rowAfter, toolRecs] using ih { r with content := r.content.map (· ++ t) }
    | ToolCall n a =>
      have h := ih { r with tool_calls_col := some ((r.tool_calls_col.getD []) ++ [⟨n, a, use_tool n a⟩]) }
      by_cases hrec : toolRecs ms = [] <;>
        simp only [rowAfter, toolRecs, hrec, if_pos, if_neg, if_true, if_false] at h ⊢ <;>
        simp [h, hrec]

theorem foldTurn_out (items : List ModelOutput) (m : Nat) (st : TurnState) :
    (items.foldl (processItem m) st).out = st.out ++ turnUpdates items := by
  induction items generalizing st with
  | nil => simp [turnUpdates]
  | cons x items ih =>
    cases x <;> simp [processItem, turnUpdates, ih, List.foldl_cons, List.append_assoc]

theorem foldTurn_content (items : List ModelOutput) (m : Nat) (st : TurnState) :
    (items.foldl (processItem m) st).content = st.content ++ chunkTexts items := by
  induction items generalizing st with
  | nil => simp [chunkTexts]
  | cons x items ih =>
    cases x <;> simp [processItem, chunkTexts, ih, List.append_assoc]

theorem foldTurn_calls (items : List ModelOutput) (m : Nat) (st : TurnState) :
    (items.foldl (processItem m) st).calls = st.calls ++ callsOf items := by
  induction items generalizing st with
  | nil => simp [callsOf]
  | cons x items ih =>
    cases x <;> simp [processItem, callsOf, ih, List.append_assoc]

theorem map_eq_self_of {α : Type} (l : List α) (f : α → α) (h : ∀ x ∈ l, f x = x) :
    l.map f = l := by
  induction l with
  | nil => rfl
  | cons x xs ih => simp [h x (by simp), ih fun y hy => h y (by simp [hy])]

theorem map_upd_append_singleton (base : List ChatRow) (r : ChatRow) (m : Nat)
    (f : ChatRow → ChatRow) (hid : r.id = m) (hbase : ∀ x ∈ base, x.id ≠ m) :
    ((base ++ [r]).map fun x => if x.id = m then f x else x) = base ++ [f r] := by
  rw [List.map_append]
  congr 1
  · exact map_eq_self_of _ _ (fun y hy => by simp [hbase y hy])
  · simp [hid]

theorem foldTurn_db : ∀ (items : List ModelOutput) (m : Nat) (st : TurnState)
    (base : List ChatRow) (r : ChatRow),
    st.db.chat = base ++ [r] → r.id = m → (∀ x ∈ base, x.id ≠ m) →
    (items.foldl (processItem m) st).db =
      { st.db with chat := base ++ [rowAfter r items] }
  | [], m, st, base, r, hchat, _, _ => by
    simp only [List.foldl_nil, rowAfter, ← hchat]
  | .Chunk t :: items, m, st, base, r, hchat, hid, hbase => by
    have step : (processItem m st (.Chunk t)).db =
        { st.db with chat := base ++ [{ r with content := r.content.map (· ++ t) }] } := by
      simp only [processItem, Database.append_message, hchat]
      rw [map_upd_append_singleton base r m _ hid hbase]
    have rec := foldTurn_db items m (processItem m st (.Chunk t)) base
      { r with content := r.content.map (· ++ t) }
      (by rw [step]) (by simpa using hid) hbase
    rw [List.foldl_cons, rec, step]
    simp [rowAfter]
  | .ToolCall n a :: items, m, st, base, r, hchat, hid, hbase => by
    have step : (processItem m st (.ToolCall n a)).db =
        { st.db with chat := base ++
          [{ r with tool_calls_col := some ((r.tool_calls_col.getD []) ++ [⟨n, a, use_tool n a⟩]) }] } := by
      simp only [processItem, Database.append_message_toolcall, hchat]
      rw [map_upd_append_singleton base r m _ hid hbase]
    have rec := foldTurn_db items m (processItem m st (.ToolCall n a)) base
      { r with tool_calls_col := some ((r.tool_calls_col.getD []) ++ [⟨n, a, use_tool n a⟩]) }
      (by rw [step]) (by simpa using hid) hbase
    rw [List.foldl_cons, rec, step]
    simp [rowAfter]

/-! ### Helper lemmas: one whole turn -/

theorem runTurn_db (db : Database) (conv : Conversation) (now : Nat)
    (items : List ModelOutput) (uerr : Option Err)
    (hfresh : ∀ x ∈ db.chat, x.id ≠ db.nextChatId) :
    (runTurn db conv now items uerr).db =
      ⟨db.convos, db.chat ++ [rowAfter (placeholderRow db conv now) items],
        db.nextConvoId, db.nextChatId + 1⟩ ∧
    (runTurn db conv now items uerr).msgId = db.nextChatId ∧
    (runTurn db conv now items uerr).out = turnUpdates items := by
  have hdb := foldTurn_db items db.nextChatId
    ⟨(db.add_message now conv.id "self" "").1, [], [], []⟩ db.chat
    (placeholderRow db conv now) (by simp [Database.add_message, placeholderRow]) rfl hfresh
  have hout := foldTurn_out items db.nextChatId
    ⟨(db.add_message now conv.id "self" "").1, [], [], []⟩
  cases uerr <;>
    refine ⟨?_, rfl, by simpa [runTurn, Database.add_message] using hout⟩ <;>
    simpa [runTurn, Database.add_message] using hdb

theorem runTurn_conv_ok (db : Database) (conv : Conversation) (now : Nat)
    (items : List ModelOutput) :
    (runTurn db conv now items none).conv =
      { conv with messages := conv.messages ++
          [.SelfMessage (strJoin (chunkTexts items)) (callsOf items)] } ∧
    (runTurn db conv now items none).err = none := by
  have hc := foldTurn_content items db.nextChatId
    ⟨(db.add_message now conv.id "self" "").1, [], [], []⟩
  have hk := foldTurn_calls items db.nextChatId
    ⟨(db.add_message now conv.id "self" "").1, [], [], []⟩
  constructor
  · simp only [runTurn, Database.add_message]
    simp only [Database.add_message] at hc hk
    simp [hc, hk]
  · simp [runTurn, Database.add_message]

theorem runTurn_conv_err (db : Database) (conv : Conversation) (now : Nat)
    (items : List ModelOutput) (e : Err) :
    (runTurn db conv now items (some e)).conv = conv ∧
    (runTurn db conv now items (some e)).err = some e := by
  constructor <;> simp [runTurn, Database.add_message]

/-- Looking the fully-updated placeholder row back up: `get_chat` finds it
because no pre-existing row has its id. -/
theorem get_chat_turn_row (dbc : List ChatRow) (r : ChatRow) (m : Nat)
    (hid : r.id = m) (hbase : ∀ x ∈ dbc, x.id ≠ m)
    (db' : Database) (hchat : db'.chat = dbc ++ [r]) :
    db'.get_chat m = some r := by
  have h1 : dbc.find? (fun x => x.id = m) = none := by
    rw [List.find?_eq_none]
    intro x hx
    simp [hbase x hx]
  simp [Database.get_chat, hchat, List.find?_append, h1, List.find?_cons, hid]

/-- `content` of the turn row after the fold: `"" ++` the chunk concatenation. -/
theorem turn_row_content (db : Database) (conv : Conversation) (now : Nat)
    (items : List ModelOutput) :
    (rowAfter (placeholderRow db conv now) items).content =
      some (strJoin (chunkTexts items)) := by
  have := rowAfter_content items (placeholderRow db conv now) "" (by rfl)
  simpa [String.empty_append] using this

theorem turn_row_id (db : Database) (conv : Conversation) (now : Nat)
    (items : List ModelOutput) :
    (rowAfter (placeholderRow db conv now) items).id = db.nextChatId :=
  (rowAfter_fixed items _).1

theorem chunkTexts_map_chunk (texts : List String) :
    chunkTexts (texts.map .Chunk) = texts := by
  induction texts with
  | nil => rfl
  | cons t ts ih => simp [chunkTexts, ih]

theorem callsOf_map_chunk (texts : List String) :
    callsOf (texts.map .Chunk) = [] := by
  induction texts with
  | nil => rfl
  | cons t ts ih => simp [callsOf, ih]

theorem add_message_fresh (db : Database) (now c : Nat) (role content : String)
    (h : ∀ x ∈ db.chat, x.id < db.nextChatId) :
    ∀ x ∈ (db.add_message now c role content).1.chat,
      x.id ≠ (db.add_message now c role content).1.nextChatId := by
  intro x hx
  simp only [Database.add_message, List.mem_append, List.mem_singleton] at hx ⊢
  rcases hx with hx | hx
  · exact Nat.ne_of_lt (Nat.lt_succ_of_lt (h x hx))
  · subst hx; exact Nat.ne_of_lt (Nat.lt_succ_self _)

theorem DbWF_fresh (db : Database) (h : DbWF db) :
    ∀ x ∈ db.chat, x.id ≠ db.nextChatId := by
  intro x hx
  exact Nat.ne_of_lt (h.1 x hx)

theorem DbWF_start_convo (db : Database) (s : String) (h : DbWF db) :
    DbWF (db.start_convo s).1 := by
  obtain ⟨h1, h2, h3⟩ := h
  refine ⟨?_, ?_, ?_⟩ <;> intro x hx <;>
    simp only [Database.start_convo, List.mem_append, List.mem_singleton] at hx ⊢
  · exact h1 x hx
  · exact Nat.lt_succ_of_lt (h2 x hx)
  · rcases hx with hx | hx
    · exact Nat.lt_succ_of_lt (h3 x hx)
    · subst hx; exact Nat.lt_succ_self _

/-- Hydrating a conversation immediately after `start_convo` on a well-formed
store succeeds with an empty message history. -/
theorem conversationInit_fresh (db : Database) (h : DbWF db) :
    conversationInit (db.start_convo SYSTEM).1 (db.start_convo SYSTEM).2 =
      .ok ⟨db.nextConvoId, SYSTEM, []⟩ := by
  have hconvo : ((db.start_convo SYSTEM).1).get_convo (db.start_convo SYSTEM).2 =
      some ⟨db.nextConvoId, none, SYSTEM⟩ := by
    have hnone : db.convos.find? (fun c => c.id = db.nextConvoId) = none := by
      rw [List.find?_eq_none]
      intro c hc
      simp [Nat.ne_of_lt (h.2.2 c hc)]
    simp [Database.get_convo, Database.start_convo, List.find?_append, hnone]
  have hchat : ((db.start_convo SYSTEM).1).chat.filter
      (fun r => r.convo_id = (db.start_convo SYSTEM).2) = [] := by
    simp only [Database.start_convo]
    rw [List.filter_eq_nil_iff]
    intro r hr
    simp [Nat.ne_of_lt (h.2.1 r hr)]
  simp [conversationInit, hconvo, Database.list_chat, hchat, sortByCreatedDesc, takeLimit,
    convoToMessages, Except.map]

theorem updToMsg_ne_done (u : Update) : updToMsg u ≠ .done := by
  cases u <;> simp [updToMsg]

theorem count_done_map_updToMsg (us : List Update) :
    (us.map updToMsg).count TransportMsg.done = 0 := by
  rw [List.count_eq_zero]
  intro hmem
  rcases List.mem_map.mp hmem with ⟨u, _, hu⟩
  exact updToMsg_ne_done u hu

/-- Reduction of a `text` request on an already-bound conversation with an
upstream failure after `items`: the push and the turn run, the error
propagates, no `done` is written and `on_client` appends `uncaught`. -/
theorem onClientText_some_err (db : Database) (conv : Conversation) (now : Nat)
    (message : String) (items : List ModelOutput) (e : Err) :
    onClientText db (some conv) now message items (some e) =
      ⟨(runTurn (db.add_message now conv.id "user" message).1
          { conv with messages := conv.messages ++ [.UserMessage message] } now items (some e)).db,
        some { conv with messages := conv.messages ++ [.UserMessage message] },
        (runTurn (db.add_message now conv.id "user" message).1
          { conv with messages := conv.messages ++ [.UserMessage message] } now items (some e)).out.map
            updToMsg ++ [.uncaught],
        some e⟩ := rfl

/-- Full characterization of a successful `text` request on an already-bound
conversation: the user row and the finalized turn row are appended to the
store, the in-memory conversation gains the `UserMessage` and the finalized
`SelfMessage`, and the transport gets the mapped updates followed by `done`. -/
theorem handleText_some_spec (db : Database) (conv : Conversation) (now : Nat)
    (message : String) (items : List ModelOutput)
    (h : ∀ x ∈ db.chat, x.id < db.nextChatId) :
    handleText db (some conv) now message items none =
      ⟨⟨db.convos,
          db.chat ++ [⟨db.nextChatId, now, conv.id, "user", some message, none⟩,
            rowAfter ⟨db.nextChatId + 1, now, conv.id, "self", some "", none⟩ items],
          db.nextConvoId, db.nextChatId + 2⟩,
        some { conv with messages := conv.messages ++
          [.UserMessage message, .SelfMessage (strJoin (chunkTexts items)) (callsOf items)] },
        (turnUpdates items).map updToMsg ++ [.done], none⟩ := by
  have hred : handleText db (some conv) now message items none =
      ⟨(runTurn (db.add_message now conv.id "user" message).1
          { conv with messages := conv.messages ++ [.UserMessage message] } now items none).db,
        some (runTurn (db.add_message now conv.id "user" message).1
          { conv with messages := conv.messages ++ [.UserMessage message] } now items none).conv,
        (runTurn (db.add_message now conv.id "user" message).1
          { conv with messages := conv.messages ++ [.UserMessage message] } now items none).out.map
            updToMsg ++ [.done],
        none⟩ := rfl
  obtain ⟨hdb, _, hout⟩ := runTurn_db (db.add_message now conv.id "user" message).1
    { conv with messages := conv.messages ++ [.UserMessage message] } now items none
    (add_message_fresh db now conv.id "user" message h)
  obtain ⟨hconv, _⟩ := runTurn_conv_ok (db.add_message now conv.id "user" message).1
    { conv with messages := conv.messages ++ [.UserMessage message] } now items
  rw [hred, hdb, hconv, hout]
  simp [Database.add_message, placeholderRow]

/-- Reduction of an unbound `text` request: a fresh conversation with the
default system prompt is started and bound, then handling proceeds exactly as
in the bound case. -/
theorem handleText_unbound_red (db : Database) (now : Nat) (message : String)
    (items : List ModelOutput) (uerr : Option Err) (h : DbWF db) :
    handleText db none now message items uerr =
      handleText (db.start_convo SYSTEM).1 (some ⟨db.nextConvoId, SYSTEM, []⟩)
        now message items uerr := by
  simp only [handleText, conversationInit_fresh db h]

/-! ### Claim theorems -/

/-- C2: for every finite sequence consisting only of `Chunk` elements fed to
`Conversation.stream`, after the upstream ends the persisted content of the
turn's message row equals the concatenation of the chunk texts in order, and
the in-memory `SelfMessage` appended on finalization has that same content. -/
theorem stream_chunks_persist_concat (db : Database) (conv : Conversation) (now : Nat)
    (texts : List String) (h : DbWF db) :
    ∃ row : ChatRow,
      (runTurn db conv now (texts.map .Chunk) none).db.get_chat
        (runTurn db conv now (texts.map .Chunk) none).msgId = some row ∧
      row.content = some (strJoin texts) ∧
      (runTurn db conv now (texts.map .Chunk) none).conv.messages =
        conv.messages ++ [.SelfMessage (strJoin texts) []] := by
  obtain ⟨hdb, hmsg, _⟩ := runTurn_db db conv now (texts.map .Chunk) none (DbWF_fresh db h)
  obtain ⟨hconv, _⟩ := runTurn_conv_ok db conv now (texts.map .Chunk)
  refine ⟨rowAfter (placeholderRow db conv now) (texts.map .Chunk), ?_, ?_, ?_⟩
  · rw [hmsg]
    exact get_chat_turn_row db.chat _ db.nextChatId (turn_row_id db conv now _)
      (DbWF_fresh db h) _ (by rw [hdb])
  · rw [turn_row_content, chunkTexts_map_chunk]
  · rw [hconv]
    simp [chunkTexts_map_chunk, callsOf_map_chunk]

/-- Witness for `stream_chunks_persist_concat` at a concrete input. -/
theorem stream_chunks_persist_concat_witness :
    DbWF emptyDb ∧
    ∃ row : ChatRow,
      (runTurn emptyDb ⟨1, "sys", []⟩ 0 (["a", "b"].map .Chunk) none).db.get_chat
        (runTurn emptyDb ⟨1, "sys", []⟩ 0 (["a", "b"].map .Chunk) none).msgId = some row ∧
      row.content = some (strJoin ["a", "b"]) ∧
      (runTurn emptyDb ⟨1, "sys", []⟩ 0 (["a", "b"].map .Chunk) none).conv.messages =
        ([] : List ChatMessage) ++ [.SelfMessage (strJoin ["a", "b"]) []] :=
  have hwf : DbWF emptyDb := ⟨by simp [emptyDb], by simp [emptyDb], by simp [emptyDb]⟩
  ⟨hwf, stream_chunks_persist_concat emptyDb ⟨1, "sys", []⟩ 0 ["a", "b"] hwf⟩

/-- C4: if the model gateway's sequence raises after yielding `items` (with N
chunk texts among them), the error propagates unsuppressed, the persisted
content of the turn's placeholder row equals the concatenation of those N
chunk texts, the tool-call annotations persisted before the failure remain on
the row, and the client receives `uncaught` as the final transport message
before teardown. -/
theorem turn_interruption_partial_persist (db : Database) (conv : Conversation)
    (now : Nat) (message : String) (items : List ModelOutput) (e : Err) (h : DbWF db) :
    (onClientText db (some conv) now message items (some e)).err = some e ∧
    (onClientText db (some conv) now message items (some e)).writes =
      (turnUpdates items).map updToMsg ++ [.uncaught] ∧
    ∃ row : ChatRow,
      (onClientText db (some conv) now message items (some e)).db.get_chat
        (db.nextChatId + 1) = some row ∧
      row.content = some (strJoin (chunkTexts items)) ∧
      row.tool_calls_col =
        (if toolRecs items = [] then none else some (toolRecs items)) := by
  have hfresh2 : ∀ x ∈ (db.add_message now conv.id "user" message).1.chat,
      x.id ≠ (db.add_message now conv.id "user" message).1.nextChatId :=
    add_message_fresh db now conv.id "user" message h.1
  obtain ⟨hdb, _, hout⟩ := runTurn_db (db.add_message now conv.id "user" message).1
    { conv with messages := conv.messages ++ [.UserMessage message] } now items (some e) hfresh2
  refine ⟨by rw [onClientText_some_err], ?_, ?_⟩
  · rw [onClientText_some_err, hout]
  · refine ⟨rowAfter (placeholderRow (db.add_message now conv.id "user" message).1
      { conv with messages := conv.messages ++ [.UserMessage message] } now) items, ?_, ?_, ?_⟩
    · rw [onClientText_some_err]
      have hnext : (db.add_message now conv.id "user" message).1.nextChatId =
          db.nextChatId + 1 := rfl
      rw [← hnext]
      exact get_chat_turn_row (db.add_message now conv.id "user" message).1.chat _ _
        (turn_row_id _ _ now _) hfresh2 _ (by rw [hdb])
    · rw [turn_row_content]
    · simpa [placeholderRow] using rowAfter_toolcalls items
        (placeholderRow (db.add_message now conv.id "user" message).1
          { conv with messages := conv.messages ++ [.UserMessage message] } now)

/-- Witness for `turn_interruption_partial_persist`: two chunks and a tool
call, then the gateway raises. -/
theorem turn_interruption_partial_persist_witness :
    (onClientText emptyDb (some ⟨1, "sys", []⟩) 0 "m"
        [.Chunk "a", .ToolCall "f" [], .Chunk "b"] (some (.upstream "boom"))).err =
      some (.upstream "boom") ∧
    (onClientText emptyDb (some ⟨1, "sys", []⟩) 0 "m"
        [.Chunk "a", .ToolCall "f" [], .Chunk "b"] (some (.upstream "boom"))).writes =
      (turnUpdates [.Chunk "a", .ToolCall "f" [], .Chunk "b"]).map updToMsg ++ [.uncaught] ∧
    ∃ row : ChatRow,
      (onClientText emptyDb (some ⟨1, "sys", []⟩) 0 "m"
          [.Chunk "a", .ToolCall "f" [], .Chunk "b"] (some (.upstream "boom"))).db.get_chat
        (emptyDb.nextChatId + 1) = some row ∧
      row.content = some (strJoin (chunkTexts [.Chunk "a", .ToolCall "f" [], .Chunk "b"])) ∧
      row.tool_calls_col =
        (if toolRecs [.Chunk "a", .ToolCall "f" [], .Chunk "b"] = []
          then none else some (toolRecs [.Chunk "a", .ToolCall "f" [], .Chunk "b"])) :=
  turn_interruption_partial_persist emptyDb ⟨1, "sys", []⟩ 0 "m"
    [.Chunk "a", .ToolCall "f" [], .Chunk "b"] (.upstream "boom")
    ⟨by simp [emptyDb], by simp [emptyDb], by simp [emptyDb]⟩

/-- C5: a `text` request on a session binds a fresh default-prompt
conversation when unbound (keeping the bound one otherwise), pushes the
message with role `user`, forwards every turn-driver update 1:1 in production
order as its transport variant, and writes exactly one `done` after the
turn's sequence ends. -/
theorem text_request_streams_and_done (db : Database) (bound : Option Conversation)
    (now : Nat) (message : String) (items : List ModelOutput) (h : DbWF db) :
    (handleText db bound now message items none).writes =
      (turnUpdates items).map updToMsg ++ [.done] ∧
    (handleText db bound now message items none).writes.count TransportMsg.done = 1 ∧
    (handleText db bound now message items none).err = none ∧
    (bound = none → ∃ conv : Conversation,
      (handleText db bound now message items none).bound = some conv ∧
      conv.system = SYSTEM ∧
      conv.messages = [.UserMessage message,
        .SelfMessage (strJoin (chunkTexts items)) (callsOf items)]) ∧
    (∀ c : Conversation, bound = some c → ∃ conv : Conversation,
      (handleText db bound now message items none).bound = some conv ∧
      conv.id = c.id ∧ conv.system = c.system ∧
      conv.messages = c.messages ++ [.UserMessage message,
        .SelfMessage (strJoin (chunkTexts items)) (callsOf items)]) ∧
    (∃ cid : Nat, ∃ selfRow : ChatRow,
      (handleText db bound now message items none).db.chat =
        db.chat ++ [⟨db.nextChatId, now, cid, "user", some message, none⟩, selfRow] ∧
      selfRow.role = "self") := by
  have hcount : ((turnUpdates items).map updToMsg ++ [TransportMsg.done]).count
      TransportMsg.done = 1 := by
    rw [List.count_append, count_done_map_updToMsg]
    rfl
  cases bound with
  | some c =>
    rw [handleText_some_spec db c now message items h.1]
    refine ⟨rfl, hcount, rfl, ?_, ?_, ?_⟩
    · intro hn
      cases hn
    · intro c' hc'
      cases hc'
      exact ⟨_, rfl, rfl, rfl, by simp⟩
    · exact ⟨c.id, _, rfl, (rowAfter_fixed items _).2.2.2⟩
  | none =>
    rw [handleText_unbound_red db now message items none h,
      handleText_some_spec (db.start_convo SYSTEM).1 ⟨db.nextConvoId, SYSTEM, []⟩
        now message items (DbWF_start_convo db SYSTEM h).1]
    refine ⟨rfl, hcount, rfl, ?_, ?_, ?_⟩
    · intro _
      exact ⟨_, rfl, rfl, by simp⟩
    · intro c' hc'
      cases hc'
    · exact ⟨db.nextConvoId, _, rfl, (rowAfter_fixed items _).2.2.2⟩

/-- Witness for `text_request_streams_and_done` on an unbound session with one
chunk and one tool call. -/
theorem text_request_streams_and_done_witness :
    (handleText emptyDb none 0 "hello" [.Chunk "hi", .ToolCall "f" []] none).writes =
      (turnUpdates [.Chunk "hi", .ToolCall "f" []]).map updToMsg ++ [.done] ∧
    (handleText emptyDb none 0 "hello" [.Chunk "hi", .ToolCall "f" []] none).writes.count
      TransportMsg.done = 1 ∧
    (handleText emptyDb none 0 "hello" [.Chunk "hi", .ToolCall "f" []] none).err = none :=
  have h := text_request_streams_and_done emptyDb none 0 "hello"
    [.Chunk "hi", .ToolCall "f" []] ⟨by simp [emptyDb], by simp [emptyDb], by simp [emptyDb]⟩
  ⟨h.1, h.2.1, h.2.2.1⟩

/-- C1 (code bug evidence): for the model-output sequence consisting of one
`ToolCall`, the turn driver `Server.think` yields only that `ToolCall` update
and zero `Result` updates — so the count of `Result` updates (0) differs from
the count of `ToolCall` updates (1), and the transport receives a `tool`
message but never a `result` message; the `case Result` branch of
`handle_client` is unreachable. -/
theorem turn_driver_emits_no_result_updates :
    turnUpdates [ModelOutput.ToolCall "f" []] = [Update.ToolCall "f" []] ∧
    (turnUpdates [ModelOutput.ToolCall "f" []]).countP
      (fun u => match u with | .Result _ => true | _ => false) = 0 ∧
    (turnUpdates [ModelOutput.ToolCall "f" []]).countP
      (fun u => match u with | .ToolCall _ _ => true | _ => false) = 1 ∧
    (handleText emptyDb (some ⟨1, "sys", []⟩) 0 "hi" [ModelOutput.ToolCall "f" []] none).writes =
      [TransportMsg.tool "f" [], TransportMsg.done] := by
  refine ⟨rfl, rfl, rfl, rfl⟩

/-- C3 (code bug evidence): conversation 1 exists in `dbOneSelfRow`, yet
loading it raises `AttributeError` (its single `self` row has a NULL
annotation column and `ChatRow.tool_calls` calls `.decode` on `None`) instead
of hydrating; a missing id raises `ValueError("Unknown conversation")`. -/
theorem load_crashes_on_annotationless_self_row :
    dbOneSelfRow.get_convo 1 = some ⟨1, none, "sys"⟩ ∧
    conversationInit dbOneSelfRow 1 = Except.error Err.attributeError ∧
    conversationInit dbOneSelfRow 2 = Except.error (Err.valueError "Unknown conversation") := by
  refine ⟨rfl, rfl, rfl⟩

/-- C9: a persisted row whose content is NULL or the empty string is
reconstructed (when reconstruction succeeds at all) with content equal to the
one-character NUL string, not the empty string. -/
theorem hydrated_empty_content_is_nul (row : ChatRow) (m : ChatMessage)
    (hc : row.content = none ∨ row.content = some "")
    (hm : rowToMessage row = .ok m) :
    msgContent m = "\x00" ∧ msgContent m ≠ "" := by
  have hcon : contentOrNul row.content = "\x00" := by
    rcases hc with hc | hc <;> simp [hc, contentOrNul]
  have hmain : msgContent m = "\x00" := by
    by_cases h1 : row.role = "user"
    · simp only [rowToMessage] at hm
      rw [if_pos h1] at hm
      cases hm
      rw [msgContent, hcon]
    · by_cases h2 : row.role = "self"
      · simp only [rowToMessage] at hm
        rw [if_neg h1, if_pos h2] at hm
        cases htc : row.tool_calls_col with
        | none => simp [ChatRow.toolCallsProp, htc, Except.map] at hm
        | some l =>
          simp only [ChatRow.toolCallsProp, htc, Except.map, Except.ok.injEq] at hm
          rw [← hm, msgContent, hcon]
      · simp only [rowToMessage] at hm
        rw [if_neg h1, if_neg h2] at hm
        exact absurd hm (by simp)
  exact ⟨hmain, by rw [hmain]; decide⟩

/-- Witness for `hydrated_empty_content_is_nul` at a concrete empty-content row. -/
theorem hydrated_empty_content_is_nul_witness :
    msgContent (ChatMessage.UserMessage "\x00") = "\x00" ∧
    msgContent (ChatMessage.UserMessage "\x00") ≠ "" :=
  hydrated_empty_content_is_nul ⟨1, 0, 1, "user", some "", none⟩
    (.UserMessage "\x00") (Or.inr rfl) rfl

/-- C10: `Conversation.push` with an invalid role writes the message row to
the store first and only then raises `NotImplementedError`, so the store gains
a row although the call fails. -/
theorem push_invalid_role_writes_then_raises (db : Database) (conv : Conversation)
    (now : Nat) (role content : String) (hu : role ≠ "user") (hs : role ≠ "self") :
    (Conversation.push db conv now role content).1.chat =
      db.chat ++ [⟨db.nextChatId, now, conv.id, role, some content, none⟩] ∧
    (Conversation.push db conv now role content).2 =
      .error (.notImplementedError role) := by
  constructor <;> simp [Conversation.push, Database.add_message, hu, hs]

/-- Witness for `push_invalid_role_writes_then_raises` with role `"admin"`. -/
theorem push_invalid_role_writes_then_raises_witness :
    (Conversation.push emptyDb ⟨1, "sys", []⟩ 0 "admin" "x").1.chat =
      emptyDb.chat ++ [⟨emptyDb.nextChatId, 0, 1, "admin", some "x", none⟩] ∧
    (Conversation.push emptyDb ⟨1, "sys", []⟩ 0 "admin" "x").2 =
      .error (.notImplementedError "admin") :=
  push_invalid_role_writes_then_raises emptyDb ⟨1, "sys", []⟩ 0 "admin" "x"
    (by decide) (by decide)

/-- C8: `Conversation.push` appends a `user` or `self` message to both the
in-memory sequence and the store, and fails fast (raises
`NotImplementedError`) for every other role. -/
theorem push_role_validation (db : Database) (conv : Conversation) (now : Nat)
    (content : String) :
    (Conversation.push db conv now "user" content).2 =
      .ok { conv with messages := conv.messages ++ [.UserMessage content] } ∧
    (Conversation.push db conv now "self" content).2 =
      .ok { conv with messages := conv.messages ++ [.SelfMessage content []] } ∧
    (∀ role, (Conversation.push db conv now role content).1.chat =
      db.chat ++ [⟨db.nextChatId, now, conv.id, role, some content, none⟩]) ∧
    (∀ role, role ≠ "user" → role ≠ "self" →
      (Conversation.push db conv now role content).2 =
        .error (.notImplementedError role)) := by
  refine ⟨by simp [Conversation.push, Database.add_message], ?_, ?_, ?_⟩
  · simp [Conversation.push, Database.add_message]
  · intro role
    by_cases h1 : role = "user" <;> by_cases h2 : role = "self" <;>
      simp [Conversation.push, Database.add_message, h1, h2]
  · intro role h1 h2
    simp [Conversation.push, Database.add_message, h1, h2]

/-- Witness for `push_role_validation` at concrete inputs (role `"user"` and
the invalid role `"tool"`). -/
theorem push_role_validation_witness :
    (Conversation.push emptyDb ⟨1, "sys", []⟩ 0 "user" "hey").2 =
      .ok { id := 1, system := "sys", messages := [ChatMessage.UserMessage "hey"] } ∧
    (Conversation.push emptyDb ⟨1, "sys", []⟩ 0 "tool" "hey").2 =
      .error (.notImplementedError "tool") :=
  have h := push_role_validation emptyDb ⟨1, "sys", []⟩ 0 "hey"
  ⟨h.1, h.2.2.2 "tool" (by decide) (by decide)⟩

/-! ### Helper lemmas: the sliding-window scenario -/

theorem pushRoleMany_cons_user (db : Database) (conv : Conversation) (t : Nat)
    (content : String) (ps : List (String × String)) :
    pushRoleMany db conv t (("user", content) :: ps) =
      pushRoleMany (db.add_message t conv.id "user" content).1
        { conv with messages := conv.messages ++ [.UserMessage content] } (t + 1) ps := rfl

theorem pushRoleMany_cons_self (db : Database) (conv : Conversation) (t : Nat)
    (content : String) (ps : List (String × String)) :
    pushRoleMany db conv t (("self", content) :: ps) =
      pushRoleMany (db.add_message t conv.id "self" content).1
        { conv with messages := conv.messages ++ [.SelfMessage content []] } (t + 1) ps := rfl

theorem pushRoleMany_chat : ∀ (ps : List (String × String)) (db : Database)
    (conv : Conversation) (t : Nat),
    (∀ p ∈ ps, p.1 = "user" ∨ p.1 = "self") →
    (pushRoleMany db conv t ps).1 =
      ⟨db.convos, db.chat ++ pushRows db.nextChatId t conv.id ps,
        db.nextConvoId, db.nextChatId + ps.length⟩
  | [], db, conv, t, _ => by simp [pushRoleMany, pushRows]
  | (role, content) :: ps, db, conv, t, hroles => by
    have hstep : ∀ (conv' : Conversation), conv'.id = conv.id →
        (pushRoleMany (db.add_message t conv.id role content).1 conv' (t + 1) ps).1 =
          ⟨db.convos, db.chat ++ pushRows db.nextChatId t conv.id ((role, content) :: ps),
            db.nextConvoId, db.nextChatId + (ps.length + 1)⟩ := by
      intro conv' hid
      rw [pushRoleMany_chat ps (db.add_message t conv.id role content).1 conv' (t + 1)
        (fun p hp => hroles p (List.mem_cons_of_mem _ hp))]
      simp [Database.add_message, pushRows, hid, Nat.add_comm, Nat.add_assoc, Nat.add_left_comm]
    rcases hroles (role, content) (List.mem_cons_self _ _) with hr | hr <;>
      simp only at hr <;> subst hr
    · rw [pushRoleMany_cons_user]
      exact hstep _ rfl
    · rw [pushRoleMany_cons_self]
      exact hstep _ rfl

theorem pushRows_length (ps : List (String × String)) : ∀ i t cid,
    (pushRows i t cid ps).length = ps.length := by
  induction ps with
  | nil => intro i t cid; rfl
  | cons p ps ih =>
    intro i t cid
    cases p
    simp [pushRows, ih]

theorem pushRows_mem_convo (ps : List (String × String)) : ∀ i t cid,
    ∀ r ∈ pushRows i t cid ps, r.convo_id = cid := by
  induction ps with
  | nil => intro i t cid r hr; cases hr
  | cons p ps ih =>
    intro i t cid r hr
    cases p
    rcases List.mem_cons.mp hr with hr | hr
    · subst hr; rfl
    · exact ih _ _ _ r hr

theorem pushRows_created_ge (ps : List (String × String)) : ∀ i t cid,
    ∀ r ∈ pushRows i t cid ps, t ≤ r.created_at := by
  induction ps with
  | nil => intro i t cid r hr; cases hr
  | cons p ps ih =>
    intro i t cid r hr
    cases p
    rcases List.mem_cons.mp hr with hr | hr
    · subst hr; exact Nat.le_refl t
    · exact Nat.le_of_succ_le (ih _ _ _ r hr)

theorem pushRows_pairwise (ps : List (String × String)) : ∀ i t cid,
    (pushRows i t cid ps).Pairwise (fun a b => a.created_at < b.created_at) := by
  induction ps with
  | nil => intro i t cid; exact List.Pairwise.nil
  | cons p ps ih =>
    intro i t cid
    cases p
    refine List.pairwise_cons.mpr ⟨?_, ih _ _ _⟩
    intro r hr
    exact Nat.lt_of_lt_of_le (Nat.lt_succ_self t) (pushRows_created_ge ps _ _ _ r hr)

theorem pushRows_drop (ps : List (String × String)) : ∀ k i t cid,
    (pushRows i t cid ps).drop k = pushRows (i + k) (t + k) cid (ps.drop k) := by
  induction ps with
  | nil => intro k i t cid; simp [pushRows]
  | cons p ps ih =>
    intro k i t cid
    cases p
    cases k with
    | zero => simp [pushRows]
    | succ k =>
      simp only [pushRows, List.drop_succ_cons]
      rw [ih k (i + 1) (t + 1) cid]
      congr 1 <;> omega

theorem pushRows_user_messages (ps : List (String × String)) : ∀ i t cid,
    (∀ p ∈ ps, p.1 = "user") →
    convoToMessages (pushRows i t cid ps) =
      .ok (ps.map (fun p => .UserMessage (contentOrNul (some p.2)))) := by
  induction ps with
  | nil => intro i t cid _; rfl
  | cons p ps ih =>
    intro i t cid hall
    obtain ⟨role, content⟩ := p
    have hr : role = "user" := hall _ (List.mem_cons_self _ _)
    subst hr
    simp only [pushRows, convoToMessages]
    rw [ih (i + 1) (t + 1) cid (fun q hq => hall q (List.mem_cons_of_mem _ hq))]
    rfl

theorem insertDesc_smallest (r : ChatRow) : ∀ (l : List ChatRow),
    (∀ x ∈ l, r.created_at < x.created_at) → insertDesc r l = l ++ [r] := by
  intro l
  induction l with
  | nil => intro _; rfl
  | cons x xs ih =>
    intro h
    have hx : ¬ x.created_at ≤ r.created_at :=
      Nat.not_le.mpr (h x (List.mem_cons_self _ _))
    simp only [insertDesc, if_neg hx, List.cons_append]
    rw [ih (fun y hy => h y (List.mem_cons_of_mem _ hy))]

theorem sortByCreatedDesc_of_increasing : ∀ (l : List ChatRow),
    l.Pairwise (fun a b => a.created_at < b.created_at) →
    sortByCreatedDesc l = l.reverse
  | [], _ => rfl
  | x :: xs, h => by
    obtain ⟨hx, hxs⟩ := List.pairwise_cons.mp h
    have : sortByCreatedDesc (x :: xs) = insertDesc x (sortByCreatedDesc xs) := rfl
    rw [this, sortByCreatedDesc_of_increasing xs hxs,
      insertDesc_smallest x xs.reverse (fun y hy => hx y (List.mem_reverse.mp hy)),
      List.reverse_cons]

theorem reverse_take_reverse (l : List ChatRow) (n : Nat) :
    (l.reverse.take n).reverse = l.drop (l.length - n) := by
  rw [← List.rtake_eq_reverse_take_reverse]
  rfl

/-- `list_chat` with limit `n` on a store whose rows for `cid` are exactly a
strictly chronologically increasing `rows` list returns the last `n` rows in
chronological order. -/
theorem list_chat_last_n (db : Database) (cid : Nat) (n : Nat) (rows : List ChatRow)
    (hfilter : db.chat.filter (fun r => r.convo_id = cid) = rows)
    (hinc : rows.Pairwise (fun a b => a.created_at < b.created_at)) :
    db.list_chat cid (some n) = rows.drop (rows.length - n) := by
  rw [Database.list_chat, hfilter, sortByCreatedDesc_of_increasing rows hinc]
  exact reverse_take_reverse rows n

/-- C7 (amended): a `connect` for a missing convo id answers
`error{"Unknown conversation"}` and leaves the session's binding (bound or
unbound) unchanged; for an existing id whose window hydrates, the server binds
the loaded conversation and replays its system prompt and reconstructed
messages. -/
theorem connect_binds_or_rejects (db : Database) (bound : Option Conversation) (cid : Nat) :
    (db.get_convo cid = none →
      handleConnect db bound cid = (bound, [.error "Unknown conversation"], none)) ∧
    (∀ (c : ConvoRow) (conv : Conversation),
      db.get_convo cid = some c → conversationInit db cid = .ok conv →
      handleConnect db bound cid =
        (some conv, [.replay c.system (messagesToJson conv.messages)], none)) := by
  constructor
  · intro hmiss
    simp [handleConnect, hmiss]
  · intro c conv h1 h2
    simp [handleConnect, h1, h2]

/-- Witness for `connect_binds_or_rejects`: a store with a single user-row
conversation; connecting to id 1 replays, connecting to id 5 errors. -/
theorem connect_binds_or_rejects_witness :
    handleConnect dbOneUserRow none 5 = (none, [.error "Unknown conversation"], none) ∧
    handleConnect dbOneUserRow none 1 =
      (some ⟨1, "sys", [.UserMessage "hi"]⟩,
        [.replay "sys" (messagesToJson [.UserMessage "hi"])], none) :=
  ⟨(connect_binds_or_rejects dbOneUserRow none 5).1 rfl,
    (connect_binds_or_rejects dbOneUserRow none 1).2
      ⟨1, none, "sys"⟩ ⟨1, "sys", [.UserMessage "hi"]⟩ rfl rfl⟩

/-- C7 counterexample: conversation 1 exists in `dbOneSelfRow`, yet `connect`
neither binds it nor writes a `replay` — hydration raises `AttributeError`
(NULL annotation column on a `self` row), the binding stays unbound and the
exception propagates. -/
theorem connect_existing_id_without_replay :
    (dbOneSelfRow.get_convo 1).isSome = true ∧
    handleConnect dbOneSelfRow none 1 = (none, [], some .attributeError) := by
  refine ⟨rfl, rfl⟩

/-- C6 (amended): after more than 30 user messages are pushed to one
conversation, hydration selects and reconstructs exactly the most recent 30
messages by creation order — not the full history — while the store retains
every pushed row. (If the most recent 30 include a pushed `self` message,
hydration instead fails on its NULL annotation column, see the
counterexample.) -/
theorem sliding_window_hydrates_last_30 (ps : List (String × String))
    (hall : ∀ p ∈ ps, p.1 = "user") (hlen : 30 < ps.length) :
    (slidingState ps).1.chat.length = ps.length ∧
    (ps.drop (ps.length - 30)).length = 30 ∧
    conversationInit (slidingState ps).1 1 =
      .ok ⟨1, SYSTEM, (ps.drop (ps.length - 30)).map
        (fun p => ChatMessage.UserMessage (contentOrNul (some p.2)))⟩ := by
  have hchar : (slidingState ps).1 =
      ⟨[⟨1, none, SYSTEM⟩], pushRows 1 0 1 ps, 2, 1 + ps.length⟩ := by
    rw [slidingState, pushRoleMany_chat ps _ _ 0 (fun p hp => Or.inl (hall p hp))]
    rfl
  refine ⟨?_, ?_, ?_⟩
  · rw [hchar]
    exact pushRows_length ps 1 0 1
  · rw [List.length_drop]
    omega
  · rw [hchar]
    have hfilter : (pushRows 1 0 1 ps).filter (fun r => r.convo_id = 1) =
        pushRows 1 0 1 ps := by
      rw [List.filter_eq_self]
      intro r hr
      simp [pushRows_mem_convo ps 1 0 1 r hr]
    have hlist := list_chat_last_n ⟨[⟨1, none, SYSTEM⟩], pushRows 1 0 1 ps, 2, 1 + ps.length⟩
      1 MSG_LIMIT (pushRows 1 0 1 ps) hfilter (pushRows_pairwise ps 1 0 1)
    simp only [conversationInit, Database.get_convo, List.find?_cons, decide_True,
      Nat.zero_eq]
    rw [hlist, pushRows_length, pushRows_drop,
      pushRows_user_messages _ _ _ _ (fun p hp => hall p (List.drop_subset _ _ hp))]
    rfl

/-- Witness for `sliding_window_hydrates_last_30`: 31 identical user pushes. -/
theorem sliding_window_hydrates_last_30_witness :
    (∀ p ∈ List.replicate 31 ("user", "m"), p.1 = "user") ∧
    30 < (List.replicate 31 ("user", "m")).length ∧
    conversationInit (slidingState (List.replicate 31 ("user", "m"))).1 1 =
      .ok ⟨1, SYSTEM,
        ((List.replicate 31 ("user", "m")).drop
            ((List.replicate 31 ("user", "m")).length - 30)).map
          (fun p => ChatMessage.UserMessage (contentOrNul (some p.2)))⟩ :=
  have hall : ∀ p ∈ List.replicate 31 ("user", "m"), p.1 = "user" := fun p hp => by
    rw [List.eq_of_mem_replicate hp]
  have hlen : 30 < (List.replicate 31 ("user", "m")).length := by simp
  ⟨hall, hlen, (sliding_window_hydrates_last_30 _ hall hlen).2.2⟩

/-- C6 counterexample: after 31 pushes (30 user messages, then one `self`
message) the store retains all 31 rows, but constructing the Conversation does
not hydrate the most recent 30 messages — it raises `AttributeError` on the
`self` row's NULL annotation column. -/
theorem sliding_window_fails_with_self_in_window :
    (slidingState ps31).1.chat.length = 31 ∧
    conversationInit (slidingState ps31).1 1 = .error .attributeError :=
  ⟨rfl, rfl⟩

end Ezra
